import Mathlib

/-!
Verification of the go-mockdns resolution engine and wire protocol adapter
(`server.go` of foxcpp/go-mockdns) against its natural-language specification.

The Go code is shallowly embedded: the zone store becomes an association list
from FQDN strings to `Zone` records, `Server.ServeDNS` becomes the pure
function `serveDNS` from a server configuration and a parsed query message to
an optional reply (`none` marks the places where the Go code panics), and the
mutation operations `Server.AppendRR` / `Server.RemoveRR` become `appendRR` /
`removeRR`.  Go `uint16` conversions are modelled as arithmetic modulo 2^16.

The resolver's CNAME-chain walk lives in `resolver.go`, which is not among the
provided sources; it is modelled from the specification (see the doc comments
starting with "Modelled from the spec").  Everything else is translated
directly from `server.go`.
-/

namespace Mockdns

/-- Mirrors Go `net.MX` (fields `Host` and `Pref`); `pref` carries the value of
the Go `uint16`, hence always reduced modulo 2^16 by the code that builds it. -/
structure GoMX where
  host : String
  pref : Nat
deriving DecidableEq, Repr

/-- Mirrors Go `net.SRV` (`Priority`, `Weight`, `Port`, `Target`). -/
structure GoSRV where
  priority : Nat
  weight : Nat
  port : Nat
  target : String
deriving DecidableEq, Repr

/-- Modelled from the spec: the engine's error taxonomy as surfaced to the
protocol adapter.  In Go this is a `*net.DNSError`; `Server.writeErr` only
inspects its `IsNotFound` flag and its `Name`, so the model keeps just those
two fields.  `notFound(name)` of the missing `resolver.go` corresponds to
`⟨true, name⟩`; a configured zone error is an arbitrary value of this type. -/
structure GoDNSErr where
  isNotFound : Bool
  name : String
deriving DecidableEq, Repr

/-- A wire-format resource record as assembled by `Server.ServeDNS`.
Constructors carry exactly the fields that the Go code fills in. -/
inductive RR where
  | aRec (name addr : String) (ttl : Nat)
  | aaaaRec (name addr : String) (ttl : Nat)
  | cnameRec (name target : String) (ttl : Nat)
  | mxRec (name : String) (pref : Nat) (host : String) (ttl : Nat)
  | nsRec (name host : String) (ttl : Nat)
  | srvRec (name : String) (priority weight port : Nat) (target : String) (ttl : Nat)
  | txtRec (name : String) (txt : List String) (ttl : Nat)
  | ptrRec (name target : String) (ttl : Nat)
  | soaRec (name nsname mbox : String) (serial refresh retryN expire minttl ttl : Nat)
  | miscRec (code : Nat) (payload : String)
deriving DecidableEq, Repr

/-- The `Zone` struct of go-mockdns (current revision, with the `Err` field).
`misc` models the `Misc map[dns.Type][]dns.RR` bucket as an association list
from raw type code to pre-built records. -/
structure Zone where
  err : Option GoDNSErr := none
  a : List String := []
  aaaa : List String := []
  txt : List String := []
  ptr : List String := []
  cname : String := ""
  mx : List GoMX := []
  ns : List String := []
  srv : List GoSRV := []
  misc : List (Nat × List RR) := []
deriving DecidableEq, Repr

/-- The zone store `map[string]Zone`, modelled as an association list with
Go-map lookup/insert/delete semantics. -/
def Zones := List (String × Zone)
deriving DecidableEq, Repr

/-- Go map read `zones[k]` (as an `Option`, `none` for a missing key). -/
def zonesFind : Zones → String → Option Zone
  | [], _ => none
  | (k, z) :: rest, n => if k = n then some z else zonesFind rest n

/-- Go map delete `delete(zones, k)`. -/
def zonesErase : Zones → String → Zones
  | [], _ => []
  | (k0, z) :: rest, k => if k0 = k then zonesErase rest k else (k0, z) :: zonesErase rest k

/-- Go map write `zones[k] = z`. -/
def zonesInsert (zs : Zones) (k : String) (z : Zone) : Zones :=
  (k, z) :: zonesErase zs k

/-- The zone stored under `k`, or the zero `Zone` value — Go's `zones[k]`. -/
def zoneAt (zs : Zones) (k : String) : Zone :=
  (zonesFind zs k).getD {}

theorem zonesFind_insert_self (zs : Zones) (k : String) (z : Zone) :
    zonesFind (zonesInsert zs k z) k = some z := by
  simp [zonesInsert, zonesFind]

theorem zonesFind_erase_self (zs : Zones) (k : String) :
    zonesFind (zonesErase zs k) k = none := by
  induction zs with
  | nil => rfl
  | cons p rest ih =>
    obtain ⟨k0, z0⟩ := p
    by_cases h : k0 = k
    · simpa [zonesErase, h] using ih
    · simpa [zonesErase, h, zonesFind] using ih

theorem zonesFind_erase_ne (zs : Zones) (k n : String) (h : n ≠ k) :
    zonesFind (zonesErase zs k) n = zonesFind zs n := by
  induction zs with
  | nil => rfl
  | cons p rest ih =>
    obtain ⟨k0, z0⟩ := p
    by_cases hk : k0 = k
    · subst hk
      have hn : ¬(k0 = n) := fun e => h e.symm
      simpa [zonesErase, zonesFind, hn] using ih
    · by_cases hn : k0 = n
      · subst hn
        simp [zonesErase, hk, zonesFind]
      · simpa [zonesErase, hk, zonesFind, hn] using ih

theorem zonesFind_insert_ne (zs : Zones) (k n : String) (z : Zone) (h : n ≠ k) :
    zonesFind (zonesInsert zs k z) n = zonesFind zs n := by
  have hk : k ≠ n := fun e => h e.symm
  simp only [zonesInsert, zonesFind, if_neg hk]
  exact zonesFind_erase_ne zs k n h

/-- Go `strings.HasSuffix(s, ".")`: whether the last character of `s` is a dot. -/
def hasDotSuffix (s : String) : Bool :=
  match s.data.reverse with
  | [] => false
  | c :: _ => c == '.'

/-- Go `dns.Fqdn` restricted to the dot test actually performed by the code:
append a trailing dot when the name does not already end in one.  This is also
the whole of the name handling done by `AppendRR` / `RemoveRR`
(`if !strings.HasSuffix(name, ".") { name = name + "." }`). -/
def dotTerm (s : String) : String :=
  if hasDotSuffix s then s else s ++ "."

/-- ASCII case folding of one character, the fragment of Go `strings.ToLower`
relevant to domain names. -/
def lowerChar (c : Char) : Char :=
  if 'A' ≤ c ∧ c ≤ 'Z' then Char.ofNat (c.toNat + 32) else c

/-- Go `strings.ToLower` on ASCII domain names. -/
def asciiLower (s : String) : String :=
  ⟨s.data.map lowerChar⟩

/-- The query-name normalisation `strings.ToLower(dns.Fqdn(name))` used by
`ServeDNS` (and, per the spec, by the resolver's own lookup entry points). -/
def normName (s : String) : String :=
  asciiLower (dotTerm s)

theorem hasDotSuffix_append_dot (s : String) : hasDotSuffix (s ++ ".") = true := by
  obtain ⟨l⟩ := s
  show hasDotSuffix ⟨l ++ ['.']⟩ = true
  simp [hasDotSuffix, List.reverse_append]

theorem hasDotSuffix_dotTerm (s : String) : hasDotSuffix (dotTerm s) = true := by
  unfold dotTerm
  by_cases h : hasDotSuffix s
  · simp [h]
  · simp [h, hasDotSuffix_append_dot]

/-- Go `strings.SplitN(s, " ", n)` for positive `n`: split around the first
`n-1` spaces.  `splitSpace1` removes everything up to the first space. -/
def splitSpace1 : List Char → Option (List Char × List Char)
  | [] => none
  | c :: cs =>
    if c = ' ' then some ([], cs)
    else
      match splitSpace1 cs with
      | none => none
      | some (a, b) => some (c :: a, b)

/-- Go `strings.SplitN(s, " ", n)`. -/
def splitN (s : String) : Nat → List String
  | 0 => []
  | 1 => [s]
  | n + 2 =>
    match splitSpace1 s.data with
    | none => [s]
    | some (a, b) => String.mk a :: splitN (String.mk b) (n + 1)

/-- Digit-string evaluation for `goAtoi`; `none` on any non-digit. -/
def digitsToNat (acc : Nat) : List Char → Option Nat
  | [] => some acc
  | c :: cs => if c.isDigit then digitsToNat (acc * 10 + (c.toNat - 48)) cs else none

/-- Go `strconv.Atoi` on a 64-bit platform: optional sign, one or more decimal
digits, and the value must fit in a signed 64-bit integer — otherwise an error
(modelled as `none`). -/
def goAtoi (s : String) : Option Int :=
  let signed : Bool × List Char :=
    match s.data with
    | '+' :: rest => (false, rest)
    | '-' :: rest => (true, rest)
    | l => (false, l)
  match signed.2 with
  | [] => none
  | ds =>
    match digitsToNat 0 ds with
    | none => none
    | some v =>
      if signed.1 then
        if (v : Int) ≤ 9223372036854775808 then some (-(v : Int)) else none
      else
        if v ≤ 9223372036854775807 then some (v : Int) else none

/-- Go conversion `uint16(v)` applied to an `int`: the low 16 bits of the
two's-complement representation, i.e. `v` modulo 2^16. -/
def toU16 (v : Int) : Nat :=
  (v.emod 65536).toNat

/-- Go `splitTXT`: chop a TXT value into chunks of at most 255, the wire
format's string-length bound (the Go code works on bytes; the model uses
characters, which agrees on ASCII fixtures). -/
def splitTXT (s : String) : List String :=
  (List.range (s.data.length / 255 + 1)).map
    (fun i => String.mk ((s.data.drop (i * 255)).take 255))

/-- Selector for the six record families whose `ServeDNS` cases go through the
resolver's CNAME-chain lookup (`lookupA` … `lookupTXT`). -/
inductive FieldSel where
  | selA
  | selAAAA
  | selMX
  | selNS
  | selSRV
  | selTXT
deriving DecidableEq, Repr

/-- The `dns.TypeX` wire code of each resolver-backed selector. -/
def selCode : FieldSel → Nat
  | .selA => 1
  | .selAAAA => 28
  | .selMX => 15
  | .selNS => 2
  | .selSRV => 33
  | .selTXT => 16

/-- Whether the selected record field of a zone is non-empty (the "requested
type's field" test of the spec's resolution algorithm). -/
def hasField : FieldSel → Zone → Bool
  | .selA, z => !z.a.isEmpty
  | .selAAAA, z => !z.aaaa.isEmpty
  | .selMX, z => !z.mx.isEmpty
  | .selNS, z => !z.ns.isEmpty
  | .selSRV, z => !z.srv.isEmpty
  | .selTXT, z => !z.txt.isEmpty

/-- Modelled from the spec: the CNAME-chain walk of the resolver
(`resolver.go` is not among the provided sources; spec §4.2, step 3).
Starting from `cur`, repeatedly: a missing zone is `NotFound(cur)`; a zone
with `Err` set returns that error; a zone with a non-empty `CNAME` whose
requested field is empty appends the target to the chain and continues; the
chain is length-bounded (cycles are a resolution failure, not a loop), the
bound being modelled as fuel whose exhaustion yields a non-not-found error.
Returns `(chain, last-consulted name, found zone or error)`. -/
def walk (zs : Zones) (hasData : Zone → Bool) :
    Nat → String → List String → List String × String × Except GoDNSErr Zone
  | 0, cur, chain => (chain, cur, Except.error ⟨false, cur⟩)
  | fuel + 1, cur, chain =>
    match zonesFind zs cur with
    | none => (chain, cur, Except.error ⟨true, cur⟩)
    | some z =>
      match z.err with
      | some e => (chain, cur, Except.error e)
      | none =>
        if z.cname ≠ "" ∧ hasData z = false then
          walk zs hasData fuel z.cname (chain ++ [z.cname])
        else if hasData z then (chain, cur, Except.ok z)
        else (chain, cur, Except.error ⟨true, cur⟩)

theorem walk_step (zs : Zones) (hasData : Zone → Bool) (fuel : Nat) (cur : String)
    (chain : List String) :
    walk zs hasData (fuel + 1) cur chain =
      match zonesFind zs cur with
      | none => (chain, cur, Except.error ⟨true, cur⟩)
      | some z =>
        match z.err with
        | some e => (chain, cur, Except.error e)
        | none =>
          if z.cname ≠ "" ∧ hasData z = false then
            walk zs hasData fuel z.cname (chain ++ [z.cname])
          else if hasData z then (chain, cur, Except.ok z)
          else (chain, cur, Except.error ⟨true, cur⟩) := rfl

/-- Modelled from the spec: resolver lookup entry point for one record family
(spec §4.2 steps 1 and 3): normalise the name, then run the chain walk with
the spec's "bounded" chain length modelled as fuel 16. -/
def lookupSel (zs : Zones) (sel : FieldSel) (host : String) :
    List String × String × Except GoDNSErr Zone :=
  walk zs (hasField sel) 16 (normName host) []

/-- Modelled from the spec: the combined (both address families) lookup used
by `LookupIP(ctx, "ip", host)` / `LookupHost` — not among the provided
sources.  Follows CNAMEs while both families are empty, merges `A` and `AAAA`
at the terminal zone, and is NotFound only when both families individually
have no records. -/
def lookupIPBoth (zs : Zones) (host : String) : Except GoDNSErr (List String) :=
  match walk zs (fun z => !z.a.isEmpty || !z.aaaa.isEmpty) 16 (normName host) [] with
  | (_, _, Except.error e) => Except.error e
  | (_, rname, Except.ok z) =>
    let addrs := z.a ++ z.aaaa
    if addrs.isEmpty then Except.error ⟨true, rname⟩ else Except.ok addrs

/-- One entry of the query section of a parsed DNS message. -/
structure Question where
  name : String
  qtype : Nat
  qclass : Nat
deriving DecidableEq, Repr

/-- The parts of a parsed `dns.Msg` request that `ServeDNS` reads. -/
structure Msg where
  opcode : Nat
  question : List Question
deriving DecidableEq, Repr

/-- The parts of the reply `dns.Msg` that `ServeDNS` and `writeErr` write:
response code, header flags, and the answer / authority (`Ns`) / extra
sections. -/
structure Reply where
  rcode : Nat := 0
  authoritative : Bool := false
  recursionAvailable : Bool := false
  answer : List RR := []
  ns : List RR := []
  extra : List RR := []
deriving DecidableEq, Repr

/-- The server configuration read by `ServeDNS`: the `Authoritative` flag and
the resolver's zone store. -/
structure ServerCfg where
  authoritative : Bool
  zones : Zones
deriving DecidableEq, Repr

/-- `Server.writeErr` from `server.go`: start from SERVFAIL with
recursion-available cleared and the extra section dropped (the answer section
is deliberately kept — the Go code has `reply.Answer = nil` commented out);
if the error is a not-found `DNSError`, switch to NXDOMAIN with
recursion-available set and a synthesised SOA in the authority section. -/
def writeErr (reply : Reply) (e : GoDNSErr) : Reply :=
  let r0 : Reply := { reply with rcode := 2, recursionAvailable := false, extra := [] }
  if e.isNotFound then
    { r0 with
      rcode := 3
      recursionAvailable := true
      ns := [RR.soaRec e.name "localhost." "hostmaster.localhost." 1 900 900 1800 60 9999] }
  else r0

/-- `appendCNAMEs` from `server.go`: materialise the visited chain as CNAME
answer records, the owner name starting at `rname` and moving to each target. -/
def appendCNAMEs (answer : List RR) (cnames : List String) (rname : String) : List RR :=
  match cnames with
  | [] => answer
  | c :: rest => appendCNAMEs (answer ++ [RR.cnameRec rname c 9999]) rest c

/-- The answer records built by the selected `ServeDNS` case from the resolved
zone's field, each owned by the terminal name `rname` with the fixed TTL. -/
def valueRRs (sel : FieldSel) (rname : String) (z : Zone) : List RR :=
  match sel with
  | .selA => z.a.map (fun ad => RR.aRec rname ad 9999)
  | .selAAAA => z.aaaa.map (fun ad => RR.aaaaRec rname ad 9999)
  | .selMX => z.mx.map (fun m => RR.mxRec rname m.pref m.host 9999)
  | .selNS => z.ns.map (fun h => RR.nsRec rname h 9999)
  | .selSRV => z.srv.map (fun sv => RR.srvRec rname sv.priority sv.weight sv.port sv.target 9999)
  | .selTXT => z.txt.map (fun t => RR.txtRec rname (splitTXT t) 9999)

/-- One resolver-backed `ServeDNS` case: run the lookup, append the CNAME
chain to the answer section, then either report the error through `writeErr`
or append the value records. -/
def serveResolved (reply0 : Reply) (zs : Zones) (sel : FieldSel) (host : String) : Reply :=
  match lookupSel zs sel host with
  | (chain, rname, Except.error e) =>
    writeErr { reply0 with answer := appendCNAMEs reply0.answer chain rname } e
  | (chain, rname, Except.ok z) =>
    { reply0 with answer := appendCNAMEs reply0.answer chain rname ++ valueRRs sel rname z }

/-- Go `zone.Misc[dns.Type(code)]` (a missing key reads as the empty list). -/
def miscGet : List (Nat × List RR) → Nat → List RR
  | [], _ => []
  | (k, v) :: rest, code => if k = code then v else miscGet rest code

/-- The reply header state after `reply.SetReply(m)` and the flag block of
`ServeDNS`: success rcode, and `Authoritative` / `RecursionAvailable` set
from the server's authoritative mode. -/
def initReply (auth : Bool) : Reply :=
  { rcode := 0, authoritative := auth, recursionAvailable := !auth,
    answer := [], ns := [], extra := [] }

/-- `Server.ServeDNS` from `server.go` as a pure function from the server
configuration and the parsed request to the reply it writes.  `none` marks
the input on which the Go code panics: reading `m.Question[0]` when the
question section is empty (which happens after the opcode check but before
any other validation).  Wire codes: opcode 0 = standard query; qclass 1 =
INET; rcodes 0/2/3/4/5 = success, server-failure, name-error,
not-implemented, refused; qtypes 1 A, 2 NS, 5 CNAME, 6 SOA, 12 PTR, 15 MX,
16 TXT, 28 AAAA, 33 SRV, anything else the `Misc` fallback. -/
def serveDNS (s : ServerCfg) (m : Msg) : Option Reply :=
  if m.opcode ≠ 0 then
    some { rcode := 5, authoritative := false, recursionAvailable := false,
           answer := [], ns := [], extra := [] }
  else
    match m.question with
    | [] => none
    | q :: _ =>
      let reply0 : Reply := initReply s.authoritative
      let qname := normName q.name
      if q.qclass ≠ 1 then some { reply0 with rcode := 4 }
      else if q.qtype = 1 then some (serveResolved reply0 s.zones .selA qname)
      else if q.qtype = 28 then some (serveResolved reply0 s.zones .selAAAA q.name)
      else if q.qtype = 15 then some (serveResolved reply0 s.zones .selMX q.name)
      else if q.qtype = 2 then some (serveResolved reply0 s.zones .selNS q.name)
      else if q.qtype = 33 then some (serveResolved reply0 s.zones .selSRV q.name)
      else if q.qtype = 5 then
        match zonesFind s.zones qname with
        | none => some (writeErr reply0 ⟨true, qname⟩)
        | some z =>
          if z.cname = "" then some (writeErr reply0 ⟨true, qname⟩)
          else some { reply0 with answer := [RR.cnameRec qname z.cname 9999] }
      else if q.qtype = 16 then some (serveResolved reply0 s.zones .selTXT q.name)
      else if q.qtype = 12 then
        match zonesFind s.zones q.name with
        | none => some (writeErr reply0 ⟨true, q.name⟩)
        | some z =>
          some { reply0 with answer := z.ptr.map (fun t => RR.ptrRec q.name t 9999) }
      else if q.qtype = 6 then
        some { reply0 with
               answer := [RR.soaRec q.name "localhost." "hostmaster.localhost."
                            1 900 900 1800 60 9999] }
      else
        match zonesFind s.zones q.name with
        | none => some (writeErr reply0 ⟨true, q.name⟩)
        | some z => some { reply0 with answer := miscGet z.misc q.qtype }

/-- The name actually handed to the lookup by each `ServeDNS` case: the `A`
case passes the pre-normalised `qname`, the other five pass `q.Name` raw (the
lookup normalises again internally either way). -/
def selArg : FieldSel → String → String
  | .selA, n => normName n
  | _, n => n

/-- `Server.AppendRR` from `server.go`: dot-terminate the name, read the
current zone (the zero `Zone` when absent), append or replace the value for
the given record type — parsing the textual `"<preference> <host>"` /
`"<priority> <weight> <port> <target>"` encodings for MX and SRV with
`strconv.Atoi` and Go `uint16` conversions — and write the zone back.  A
parse failure returns the Go error message and leaves the store unchanged. -/
def appendRR (zs : Zones) (nameArg : String) (rrType : Nat) (rrData : String) :
    Except String Zones :=
  let name := dotTerm nameArg
  let zone := zoneAt zs name
  if rrType = 1 then Except.ok (zonesInsert zs name { zone with a := zone.a ++ [rrData] })
  else if rrType = 28 then
    Except.ok (zonesInsert zs name { zone with aaaa := zone.aaaa ++ [rrData] })
  else if rrType = 16 then
    Except.ok (zonesInsert zs name { zone with txt := zone.txt ++ [rrData] })
  else if rrType = 12 then
    Except.ok (zonesInsert zs name { zone with ptr := zone.ptr ++ [rrData] })
  else if rrType = 5 then
    Except.ok (zonesInsert zs name { zone with cname := rrData })
  else if rrType = 15 then
    match splitN rrData 2 with
    | [p, h] =>
      match goAtoi p with
      | none => Except.error "invalid MX priority"
      | some v =>
        Except.ok (zonesInsert zs name { zone with mx := zone.mx ++ [⟨h, toU16 v⟩] })
    | _ => Except.error "invalid MX rrData format"
  else if rrType = 2 then
    Except.ok (zonesInsert zs name { zone with ns := zone.ns ++ [rrData] })
  else if rrType = 33 then
    match splitN rrData 4 with
    | [p, w, pt, tg] =>
      match goAtoi p with
      | none => Except.error "invalid SRV priority"
      | some vp =>
        match goAtoi w with
        | none => Except.error "invalid SRV priority"
        | some vw =>
          match goAtoi pt with
          | none => Except.error "invalid SRV port"
          | some vpt =>
            Except.ok (zonesInsert zs name
              { zone with srv := zone.srv ++ [⟨toU16 vp, toU16 vw, toU16 vpt, tg⟩] })
    | _ => Except.error "invalid SRV rrData format"
  else Except.error "RR type not supported"

/-- The field-clearing switch of `Server.RemoveRR` (unknown types fall
through with the zone unchanged). -/
def clearRR (zone : Zone) (rrType : Nat) : Zone :=
  if rrType = 1 then { zone with a := [] }
  else if rrType = 28 then { zone with aaaa := [] }
  else if rrType = 16 then { zone with txt := [] }
  else if rrType = 12 then { zone with ptr := [] }
  else if rrType = 5 then { zone with cname := "" }
  else if rrType = 15 then { zone with mx := [] }
  else if rrType = 2 then { zone with ns := [] }
  else if rrType = 33 then { zone with srv := [] }
  else zone

/-- `isZoneEmpty` from `server.go`: every record field empty (note that the
`Err` field is not consulted). -/
def isZoneEmpty (z : Zone) : Bool :=
  z.a.isEmpty && z.aaaa.isEmpty && z.txt.isEmpty && z.ptr.isEmpty && (z.cname == "")
    && z.mx.isEmpty && z.ns.isEmpty && z.srv.isEmpty && z.misc.isEmpty

/-- `Server.RemoveRR` from `server.go`: dot-terminate the name, clear all
records of the given type, then delete the entry when the resulting zone is
empty and store it back otherwise. -/
def removeRR (zs : Zones) (nameArg : String) (rrType : Nat) : Zones :=
  let name := dotTerm nameArg
  let zone := clearRR (zoneAt zs name) rrType
  if isZoneEmpty zone then zonesErase zs name else zonesInsert zs name zone

/-- Shape of the NXDOMAIN replies produced through `writeErr`: name-error
rcode, recursion-available forced on, a synthesised SOA for `n` in the
authority section, and whatever answers had been accumulated kept. -/
def nxReply (auth : Bool) (ans : List RR) (n : String) : Reply :=
  { rcode := 3, authoritative := auth, recursionAvailable := true, answer := ans,
    ns := [RR.soaRec n "localhost." "hostmaster.localhost." 1 900 900 1800 60 9999],
    extra := [] }

/-- Shape of the SERVFAIL replies produced through `writeErr`: rcode 2,
recursion-available forced off, extra cleared, answers kept, authority left
as it was (empty on every `ServeDNS` path). -/
def sfReply (auth : Bool) (ans : List RR) : Reply :=
  { rcode := 2, authoritative := auth, recursionAvailable := false, answer := ans,
    ns := [], extra := [] }

theorem writeErr_isNotFound (r : Reply) (e : GoDNSErr) (h : e.isNotFound = true) :
    writeErr r e =
      { r with
        rcode := 3
        recursionAvailable := true
        extra := []
        ns := [RR.soaRec e.name "localhost." "hostmaster.localhost."
                 1 900 900 1800 60 9999] } := by
  simp [writeErr, h]

theorem writeErr_other (r : Reply) (e : GoDNSErr) (h : e.isNotFound = false) :
    writeErr r e = { r with rcode := 2, recursionAvailable := false, extra := [] } := by
  simp [writeErr, h]

/-- C1: a CNAME-type query answers with the queried zone's own `CNAME` field,
taken literally from that one store entry — for every store, so the target's
own records (including a further CNAME) are never consulted; the reply is
NXDOMAIN when the zone is absent or its `CNAME` field is empty. -/
theorem c1_cname_query_is_literal (s : ServerCfg) (name : String) (qs : List Question) :
    (∀ z : Zone, zonesFind s.zones (normName name) = some z → z.cname ≠ "" →
        serveDNS s { opcode := 0, question := ⟨name, 5, 1⟩ :: qs } =
          some { rcode := 0, authoritative := s.authoritative,
                 recursionAvailable := !s.authoritative,
                 answer := [RR.cnameRec (normName name) z.cname 9999],
                 ns := [], extra := [] }) ∧
    (zonesFind s.zones (normName name) = none →
        serveDNS s { opcode := 0, question := ⟨name, 5, 1⟩ :: qs } =
          some (nxReply s.authoritative [] (normName name))) ∧
    (∀ z : Zone, zonesFind s.zones (normName name) = some z → z.cname = "" →
        serveDNS s { opcode := 0, question := ⟨name, 5, 1⟩ :: qs } =
          some (nxReply s.authoritative [] (normName name))) := by
  refine ⟨?_, ?_, ?_⟩
  · intro z hz hc
    simp [serveDNS, hz, hc, initReply]
  · intro hz
    simp [serveDNS, hz, nxReply, writeErr, initReply]
  · intro z hz hc
    simp [serveDNS, hz, hc, nxReply, writeErr, initReply]

/-- Witness for C1 on the spec's three-zone chain: the CNAME lookup of
`foo.io` returns exactly `bar.io.` even though `bar.io.` has a CNAME of its
own. -/
def zonesChain : Zones :=
  [("foo.io.", { cname := "bar.io." }), ("bar.io.", { cname := "example.org." }),
   ("example.org.", { txt := ["hello"] })]

theorem c1_witness :
    serveDNS ⟨false, zonesChain⟩ { opcode := 0, question := [⟨"foo.io", 5, 1⟩] } =
      some { rcode := 0, authoritative := false, recursionAvailable := true,
             answer := [RR.cnameRec "foo.io." "bar.io." 9999], ns := [], extra := [] } := by
  have h := (c1_cname_query_is_literal ⟨false, zonesChain⟩ "foo.io" []).1
    { cname := "bar.io." } (by decide) (by decide)
  have hn : normName "foo.io" = "foo.io." := by decide
  rw [hn] at h
  exact h

/-- C10: for a standard-query opcode, the handler reads `m.Question[0]`
before any other validation, so an empty question section makes it panic
(modelled as `none`) instead of producing an error response; with any other
opcode the refused reply is produced without touching the question section,
so no panic occurs even on an empty question. -/
theorem c10_empty_question_panics (s : ServerCfg) (m : Msg)
    (hop : m.opcode = 0) (hq : m.question = []) :
    serveDNS s m = none ∧
    (∀ m2 : Msg, m2.opcode ≠ 0 →
        serveDNS s m2 =
          some { rcode := 5, authoritative := false, recursionAvailable := false,
                 answer := [], ns := [], extra := [] }) := by
  constructor
  · simp [serveDNS, hop, hq]
  · intro m2 h2
    simp [serveDNS, h2]

theorem c10_witness :
    serveDNS ⟨false, []⟩ { opcode := 0, question := [] } = none ∧
    serveDNS ⟨false, []⟩ { opcode := 4, question := [] } =
      some { rcode := 5, authoritative := false, recursionAvailable := false,
             answer := [], ns := [], extra := [] } := by
  have h := c10_empty_question_panics ⟨false, []⟩ { opcode := 0, question := [] } rfl rfl
  exact ⟨h.1, h.2 { opcode := 4, question := [] } (by decide)⟩

/-- C2 counterexample: a server configured as authoritative answers a CNAME
query for an absent zone with NXDOMAIN, and that response has the
recursion-available flag SET (with the authoritative flag also set) —
`writeErr` forces `RecursionAvailable = true` on every not-found reply, so
the claim that authoritative mode clears recursion-available on every
response, including NXDOMAIN, is false. -/
theorem c2_counterexample :
    serveDNS ⟨true, []⟩ { opcode := 0, question := [⟨"missing.example.", 5, 1⟩] } =
      some (nxReply true [] "missing.example.") ∧
    (nxReply true [] "missing.example.").recursionAvailable = true ∧
    (nxReply true [] "missing.example.").authoritative = true := by
  exact ⟨by decide, rfl, rfl⟩

theorem serveResolved_flags (auth : Bool) (zs : Zones) (sel : FieldSel) (host : String) :
    (serveResolved (initReply auth) zs sel host).authoritative = auth ∧
    (serveResolved (initReply auth) zs sel host).recursionAvailable =
      (if (serveResolved (initReply auth) zs sel host).rcode = 3 then true
       else if (serveResolved (initReply auth) zs sel host).rcode = 2 then false
       else !auth) := by
  rcases hl : lookupSel zs sel host with ⟨chain, rname, res⟩
  cases res with
  | error e =>
    cases he : e.isNotFound
    · simp [serveResolved, hl, writeErr, he, initReply]
    · simp [serveResolved, hl, writeErr, he, initReply]
  | ok z =>
    simp [serveResolved, hl, initReply]

/-- C2 (amended): for every standard-opcode query, the authoritative flag of
the reply always equals the configured mode, and recursion-available equals
the mode's complement only on non-error replies — every NXDOMAIN reply has
recursion-available forced on and every SERVFAIL reply has it forced off,
regardless of the configured mode. -/
theorem c2_flags_amended (s : ServerCfg) (q : Question) (qs : List Question) (r : Reply)
    (h : serveDNS s { opcode := 0, question := q :: qs } = some r) :
    r.authoritative = s.authoritative ∧
    r.recursionAvailable =
      (if r.rcode = 3 then true else if r.rcode = 2 then false else !s.authoritative) := by
  simp only [serveDNS] at h
  norm_num at h
  by_cases hc : q.qclass = 1
  case neg =>
    rw [if_neg hc] at h
    injection h with h
    subst h
    simp [initReply]
  rw [if_pos hc] at h
  by_cases h1 : q.qtype = 1
  · rw [if_pos h1] at h
    injection h with h
    subst h
    exact serveResolved_flags s.authoritative s.zones _ _
  rw [if_neg h1] at h
  by_cases h28 : q.qtype = 28
  · rw [if_pos h28] at h
    injection h with h
    subst h
    exact serveResolved_flags s.authoritative s.zones _ _
  rw [if_neg h28] at h
  by_cases h15 : q.qtype = 15
  · rw [if_pos h15] at h
    injection h with h
    subst h
    exact serveResolved_flags s.authoritative s.zones _ _
  rw [if_neg h15] at h
  by_cases h2 : q.qtype = 2
  · rw [if_pos h2] at h
    injection h with h
    subst h
    exact serveResolved_flags s.authoritative s.zones _ _
  rw [if_neg h2] at h
  by_cases h33 : q.qtype = 33
  · rw [if_pos h33] at h
    injection h with h
    subst h
    exact serveResolved_flags s.authoritative s.zones _ _
  rw [if_neg h33] at h
  by_cases h5 : q.qtype = 5
  · rw [if_pos h5] at h
    rcases hz : zonesFind s.zones (normName q.name) with _ | z
    · simp only [hz] at h
      injection h with h
      subst h
      simp [writeErr, initReply]
    · simp only [hz] at h
      by_cases hcn : z.cname = ""
      · rw [if_pos hcn] at h
        injection h with h
        subst h
        simp [writeErr, initReply]
      · rw [if_neg hcn] at h
        injection h with h
        subst h
        simp [initReply]
  rw [if_neg h5] at h
  by_cases h16 : q.qtype = 16
  · rw [if_pos h16] at h
    injection h with h
    subst h
    exact serveResolved_flags s.authoritative s.zones _ _
  rw [if_neg h16] at h
  by_cases h12 : q.qtype = 12
  · rw [if_pos h12] at h
    rcases hz : zonesFind s.zones q.name with _ | z
    · simp only [hz] at h
      injection h with h
      subst h
      simp [writeErr, initReply]
    · simp only [hz] at h
      injection h with h
      subst h
      simp [initReply]
  rw [if_neg h12] at h
  by_cases h6 : q.qtype = 6
  · rw [if_pos h6] at h
    injection h with h
    subst h
    simp [initReply]
  rw [if_neg h6] at h
  rcases hz : zonesFind s.zones q.name with _ | z
  · simp only [hz] at h
    injection h with h
    subst h
    simp [writeErr, initReply]
  · simp only [hz] at h
    injection h with h
    subst h
    simp [initReply]

theorem c2_amended_witness :
    (nxReply false [] "x.").authoritative = false ∧
    (nxReply false [] "x.").recursionAvailable =
      (if (nxReply false [] "x.").rcode = 3 then true
       else if (nxReply false [] "x.").rcode = 2 then false else !false) := by
  exact c2_flags_amended ⟨false, []⟩ ⟨"x.", 5, 1⟩ [] (nxReply false [] "x.") (by decide)

/-- C4: every wire query whose lookup ends in NotFound is answered with
NXDOMAIN carrying a synthesised SOA for the last-consulted name in the
authority section, and any CNAME chain records appended before the failure
remain in the answer section.  The conjuncts cover every `ServeDNS` path that
reaches `writeErr` with a not-found error: the six resolver-backed types
(where a non-empty chain can arise), the CNAME type (absent zone or empty
`CNAME` field), the PTR type on an absent zone, and unknown types on an
absent zone (the non-resolver paths never accumulate a chain, so their answer
section is empty). -/
theorem c4_notfound_preserves_chain (s : ServerCfg) (q : Question) (qs : List Question)
    (hclass : q.qclass = 1) :
    (∀ (sel : FieldSel) (cs : List String) (rn : String) (e : GoDNSErr),
        q.qtype = selCode sel →
        lookupSel s.zones sel (selArg sel q.name) = (cs, rn, Except.error e) →
        e.isNotFound = true →
        serveDNS s { opcode := 0, question := q :: qs } =
          some (nxReply s.authoritative (appendCNAMEs [] cs rn) e.name)) ∧
    (q.qtype = 5 → zonesFind s.zones (normName q.name) = none →
        serveDNS s { opcode := 0, question := q :: qs } =
          some (nxReply s.authoritative [] (normName q.name))) ∧
    (∀ z : Zone, q.qtype = 5 → zonesFind s.zones (normName q.name) = some z →
        z.cname = "" →
        serveDNS s { opcode := 0, question := q :: qs } =
          some (nxReply s.authoritative [] (normName q.name))) ∧
    (q.qtype = 12 → zonesFind s.zones q.name = none →
        serveDNS s { opcode := 0, question := q :: qs } =
          some (nxReply s.authoritative [] q.name)) ∧
    (q.qtype ∉ ([1, 28, 15, 2, 33, 5, 16, 12, 6] : List Nat) →
        zonesFind s.zones q.name = none →
        serveDNS s { opcode := 0, question := q :: qs } =
          some (nxReply s.authoritative [] q.name)) := by
  refine ⟨?_, ?_, ?_, ?_, ?_⟩
  · intro sel cs rn e hsel hw he
    cases sel <;>
      simp only [selCode] at hsel <;>
      simp only [selArg] at hw <;>
      simp [serveDNS, hclass, hsel, serveResolved, hw, writeErr, he, nxReply, initReply]
  · intro h5 hz
    simp [serveDNS, hclass, h5, hz, writeErr, nxReply, initReply]
  · intro z h5 hz hc
    simp [serveDNS, hclass, h5, hz, hc, writeErr, nxReply, initReply]
  · intro h12 hz
    simp [serveDNS, hclass, h12, hz, writeErr, nxReply, initReply]
  · intro hne hz
    simp only [List.mem_cons, List.mem_singleton, List.not_mem_nil, or_false] at hne
    push_neg at hne
    obtain ⟨h1, h28, h15, h2, h33, h5, h16, h12, h6⟩ := hne
    simp [serveDNS, hclass, h1, h28, h15, h2, h33, h5, h16, h12, h6, hz, writeErr,
      nxReply, initReply]

theorem c4_witness :
    serveDNS ⟨false, [("foo.io.", { cname := "bar.io." })]⟩
        { opcode := 0, question := [⟨"foo.io", 16, 1⟩] } =
      some (nxReply false (appendCNAMEs [] ["bar.io."] "bar.io.") "bar.io.") ∧
    serveDNS ⟨false, []⟩ { opcode := 0, question := [⟨"4.3.2.1.in-addr.arpa.", 12, 1⟩] } =
      some (nxReply false [] "4.3.2.1.in-addr.arpa.") ∧
    serveDNS ⟨false, []⟩ { opcode := 0, question := [⟨"example.org.", 52, 1⟩] } =
      some (nxReply false [] "example.org.") := by
  refine ⟨?_, ?_, ?_⟩
  · exact (c4_notfound_preserves_chain ⟨false, [("foo.io.", { cname := "bar.io." })]⟩
      ⟨"foo.io", 16, 1⟩ [] rfl).1 .selTXT ["bar.io."] "bar.io." ⟨true, "bar.io."⟩
      rfl (by rfl) rfl
  · exact (c4_notfound_preserves_chain ⟨false, []⟩
      ⟨"4.3.2.1.in-addr.arpa.", 12, 1⟩ [] rfl).2.2.2.1 rfl (by rfl)
  · exact (c4_notfound_preserves_chain ⟨false, []⟩
      ⟨"example.org.", 52, 1⟩ [] rfl).2.2.2.2 (by decide) (by rfl)

/-- C5 counterexample: the store holds one zone, `foo.io.`, whose `Err` field
is set; a CNAME-type wire query against it answers NOERROR with a non-empty
answer section — the `TypeCNAME` case of `ServeDNS` reads the zone map
directly and never consults `Err`, so the claim that every wire query against
an `Err` zone yields server-failure with empty sections is false. -/
theorem c5_counterexample :
    serveDNS ⟨false, [("foo.io.", { err := some ⟨false, ""⟩, cname := "bar.io." })]⟩
        { opcode := 0, question := [⟨"foo.io.", 5, 1⟩] } =
      some { rcode := 0, authoritative := false, recursionAvailable := true,
             answer := [RR.cnameRec "foo.io." "bar.io." 9999], ns := [], extra := [] } ∧
    (0 : Nat) ≠ 2 ∧
    ([RR.cnameRec "foo.io." "bar.io." 9999] : List RR) ≠ [] := by
  exact ⟨by decide, by decide, by decide⟩

/-- C5 (amended): only the resolver-backed query types (A, AAAA, MX, NS, SRV,
TXT) honour the `Err` field; for those, a query whose own zone carries a
configured (non-not-found) error yields SERVFAIL with both the answer and
the authority section empty and the extra section cleared.  CNAME, PTR, SOA
and unknown-type queries ignore `Err` (see the counterexample). -/
theorem c5_err_zone_servfail (s : ServerCfg) (q : Question) (qs : List Question)
    (sel : FieldSel) (z : Zone) (e : GoDNSErr)
    (hclass : q.qclass = 1) (hsel : q.qtype = selCode sel)
    (hz : zonesFind s.zones (normName (selArg sel q.name)) = some z)
    (he : z.err = some e) (hnf : e.isNotFound = false) :
    serveDNS s { opcode := 0, question := q :: qs } =
      some (sfReply s.authoritative []) := by
  have hl : lookupSel s.zones sel (selArg sel q.name) =
      ([], normName (selArg sel q.name), Except.error e) := by
    rw [lookupSel, show (16 : Nat) = 15 + 1 from rfl, walk_step]
    simp [hz, he]
  cases sel <;>
    simp only [selCode] at hsel <;>
    simp only [selArg] at hl <;>
    simp [serveDNS, hclass, hsel, serveResolved, hl, writeErr, hnf, sfReply, initReply,
      appendCNAMEs]

theorem c5_amended_witness :
    serveDNS ⟨true, [("err.io.", { err := some ⟨false, ""⟩ })]⟩
        { opcode := 0, question := [⟨"err.io", 1, 1⟩] } =
      some (sfReply true []) := by
  exact c5_err_zone_servfail ⟨true, [("err.io.", { err := some ⟨false, ""⟩ })]⟩
    ⟨"err.io", 1, 1⟩ [] .selA { err := some ⟨false, ""⟩ } ⟨false, ""⟩
    rfl rfl (by decide) rfl rfl

/-- C3: the combined address-family lookup on a zone succeeds exactly when at
least one of the `A` / `AAAA` record sets is non-empty, returning the merged
contents of both sets, and is NotFound when both families individually have
no records (stated for the zone the query name maps to, with no configured
error; an empty `CNAME` in the NotFound half keeps the walk from moving on to
another zone). -/
theorem c3_combined_lookup_merge (zs : Zones) (n : String) (z : Zone)
    (hf : zonesFind zs (normName n) = some z) (he : z.err = none) :
    ((z.a ≠ [] ∨ z.aaaa ≠ []) → lookupIPBoth zs n = Except.ok (z.a ++ z.aaaa)) ∧
    (z.a = [] → z.aaaa = [] → z.cname = "" →
      lookupIPBoth zs n = Except.error ⟨true, normName n⟩) := by
  constructor
  · intro hne
    have hd : (!z.a.isEmpty || !z.aaaa.isEmpty) = true := by
      rcases hne with h | h
      · cases hA : z.a with
        | nil => exact absurd hA h
        | cons x xs => simp [hA]
      · cases hA : z.aaaa with
        | nil => exact absurd hA h
        | cons x xs => simp [hA]
    have hne2 : (z.a ++ z.aaaa).isEmpty = false := by
      cases hA : z.a ++ z.aaaa with
      | nil =>
        rcases hne with h | h
        · exact absurd (List.append_eq_nil.mp hA).1 h
        · exact absurd (List.append_eq_nil.mp hA).2 h
      | cons x xs => rfl
    unfold lookupIPBoth
    rw [show (16 : Nat) = 15 + 1 from rfl, walk_step]
    simp [hf, he, hd, hne2]
  · intro ha haaaa hc
    unfold lookupIPBoth
    rw [show (16 : Nat) = 15 + 1 from rfl, walk_step]
    simp [hf, he, ha, haaaa, hc]

theorem c3_witness :
    lookupIPBoth
        [("example.com.",
          { a := ["192.168.0.1", "10.0.0.1"], aaaa := ["2001:db8::1", "2001:db8::2"] })]
        "example.com" =
      Except.ok ["192.168.0.1", "10.0.0.1", "2001:db8::1", "2001:db8::2"] := by
  have h := (c3_combined_lookup_merge
    [("example.com.",
      { a := ["192.168.0.1", "10.0.0.1"], aaaa := ["2001:db8::1", "2001:db8::2"] })]
    "example.com"
    { a := ["192.168.0.1", "10.0.0.1"], aaaa := ["2001:db8::1", "2001:db8::2"] }
    (by decide) rfl).1 (Or.inl (by decide))
  simpa using h

theorem zoneAt_insert_self (zs : Zones) (k : String) (z : Zone) :
    zoneAt (zonesInsert zs k z) k = z := by
  simp [zoneAt, zonesFind_insert_self]

/-- C6: two successive `AppendRR` calls for the same name and the same
multi-valued record type (A, AAAA, TXT, PTR, NS, MX, SRV) append — the stored
field afterwards is the original list followed by the two new values in order
of addition — while for CNAME the second call replaces the first value. -/
theorem c6_append_appends_cname_replaces (zs : Zones) (n : String) :
    (∀ d1 d2 zs1 zs2, appendRR zs n 1 d1 = Except.ok zs1 →
        appendRR zs1 n 1 d2 = Except.ok zs2 →
        (zoneAt zs2 (dotTerm n)).a = (zoneAt zs (dotTerm n)).a ++ [d1, d2]) ∧
    (∀ d1 d2 zs1 zs2, appendRR zs n 28 d1 = Except.ok zs1 →
        appendRR zs1 n 28 d2 = Except.ok zs2 →
        (zoneAt zs2 (dotTerm n)).aaaa = (zoneAt zs (dotTerm n)).aaaa ++ [d1, d2]) ∧
    (∀ d1 d2 zs1 zs2, appendRR zs n 16 d1 = Except.ok zs1 →
        appendRR zs1 n 16 d2 = Except.ok zs2 →
        (zoneAt zs2 (dotTerm n)).txt = (zoneAt zs (dotTerm n)).txt ++ [d1, d2]) ∧
    (∀ d1 d2 zs1 zs2, appendRR zs n 12 d1 = Except.ok zs1 →
        appendRR zs1 n 12 d2 = Except.ok zs2 →
        (zoneAt zs2 (dotTerm n)).ptr = (zoneAt zs (dotTerm n)).ptr ++ [d1, d2]) ∧
    (∀ d1 d2 zs1 zs2, appendRR zs n 2 d1 = Except.ok zs1 →
        appendRR zs1 n 2 d2 = Except.ok zs2 →
        (zoneAt zs2 (dotTerm n)).ns = (zoneAt zs (dotTerm n)).ns ++ [d1, d2]) ∧
    (∀ d1 p1 h1 v1 d2 p2 h2 v2 zs1 zs2,
        splitN d1 2 = [p1, h1] → goAtoi p1 = some v1 →
        splitN d2 2 = [p2, h2] → goAtoi p2 = some v2 →
        appendRR zs n 15 d1 = Except.ok zs1 →
        appendRR zs1 n 15 d2 = Except.ok zs2 →
        (zoneAt zs2 (dotTerm n)).mx =
          (zoneAt zs (dotTerm n)).mx ++ [⟨h1, toU16 v1⟩, ⟨h2, toU16 v2⟩]) ∧
    (∀ d1 p1 w1 t1 g1 vp1 vw1 vt1 d2 p2 w2 t2 g2 vp2 vw2 vt2 zs1 zs2,
        splitN d1 4 = [p1, w1, t1, g1] →
        goAtoi p1 = some vp1 → goAtoi w1 = some vw1 → goAtoi t1 = some vt1 →
        splitN d2 4 = [p2, w2, t2, g2] →
        goAtoi p2 = some vp2 → goAtoi w2 = some vw2 → goAtoi t2 = some vt2 →
        appendRR zs n 33 d1 = Except.ok zs1 →
        appendRR zs1 n 33 d2 = Except.ok zs2 →
        (zoneAt zs2 (dotTerm n)).srv =
          (zoneAt zs (dotTerm n)).srv ++
            [⟨toU16 vp1, toU16 vw1, toU16 vt1, g1⟩, ⟨toU16 vp2, toU16 vw2, toU16 vt2, g2⟩]) ∧
    (∀ d1 d2 zs1 zs2, appendRR zs n 5 d1 = Except.ok zs1 →
        appendRR zs1 n 5 d2 = Except.ok zs2 →
        (zoneAt zs2 (dotTerm n)).cname = d2) := by
  refine ⟨?_, ?_, ?_, ?_, ?_, ?_, ?_, ?_⟩
  · intro d1 d2 zs1 zs2 hap1 hap2
    simp [appendRR] at hap1 hap2
    subst hap1
    subst hap2
    simp [zoneAt_insert_self]
  · intro d1 d2 zs1 zs2 hap1 hap2
    simp [appendRR] at hap1 hap2
    subst hap1
    subst hap2
    simp [zoneAt_insert_self]
  · intro d1 d2 zs1 zs2 hap1 hap2
    simp [appendRR] at hap1 hap2
    subst hap1
    subst hap2
    simp [zoneAt_insert_self]
  · intro d1 d2 zs1 zs2 hap1 hap2
    simp [appendRR] at hap1 hap2
    subst hap1
    subst hap2
    simp [zoneAt_insert_self]
  · intro d1 d2 zs1 zs2 hap1 hap2
    simp [appendRR] at hap1 hap2
    subst hap1
    subst hap2
    simp [zoneAt_insert_self]
  · intro d1 p1 h1 v1 d2 p2 h2 v2 zs1 zs2 hs1 ha1 hs2 ha2 hap1 hap2
    simp [appendRR, hs1, ha1] at hap1
    subst hap1
    simp [appendRR, hs2, ha2] at hap2
    subst hap2
    simp [zoneAt_insert_self]
  · intro d1 p1 w1 t1 g1 vp1 vw1 vt1 d2 p2 w2 t2 g2 vp2 vw2 vt2 zs1 zs2
      hs1 hp1 hw1 ht1 hs2 hp2 hw2 ht2 hap1 hap2
    simp [appendRR, hs1, hp1, hw1, ht1] at hap1
    subst hap1
    simp [appendRR, hs2, hp2, hw2, ht2] at hap2
    subst hap2
    simp [zoneAt_insert_self]
  · intro d1 d2 zs1 zs2 hap1 hap2
    simp [appendRR] at hap1 hap2
    subst hap1
    subst hap2
    simp [zoneAt_insert_self]

theorem c6_witness :
    (zoneAt [("foo.io.", { a := ["192.168.2.19", "192.168.2.20"] })] (dotTerm "foo.io")).a =
        (zoneAt [] (dotTerm "foo.io")).a ++ ["192.168.2.19", "192.168.2.20"] ∧
    (zoneAt [("foo.io.",
        { mx := [⟨"bar.io.", 19⟩, ⟨"zoom.io.", 23⟩] })] (dotTerm "foo.io")).mx =
        (zoneAt [] (dotTerm "foo.io")).mx ++ [⟨"bar.io.", 19⟩, ⟨"zoom.io.", 23⟩] ∧
    (zoneAt [("foo.io.", { cname := "zoom.io." })] (dotTerm "foo.io")).cname = "zoom.io." := by
  refine ⟨?_, ?_, ?_⟩
  · exact (c6_append_appends_cname_replaces [] "foo.io").1 "192.168.2.19" "192.168.2.20"
      [("foo.io.", { a := ["192.168.2.19"] })]
      [("foo.io.", { a := ["192.168.2.19", "192.168.2.20"] })] (by rfl) (by rfl)
  · have h := (c6_append_appends_cname_replaces [] "foo.io").2.2.2.2.2.1 "19 bar.io."
      "19" "bar.io." 19 "23 zoom.io." "23" "zoom.io." 23
      [("foo.io.", { mx := [⟨"bar.io.", 19⟩] })]
      [("foo.io.", { mx := [⟨"bar.io.", 19⟩, ⟨"zoom.io.", 23⟩] })]
      (by rfl) (by rfl) (by rfl) (by rfl) (by rfl) (by rfl)
    simpa using h
  · exact (c6_append_appends_cname_replaces [] "foo.io").2.2.2.2.2.2.2 "bar.io." "zoom.io."
      [("foo.io.", { cname := "bar.io." })]
      [("foo.io.", { cname := "zoom.io." })] (by rfl) (by rfl)

/-- C7 counterexample: an MX preference of 65536 (and likewise -1) does not
fit `uint16`, yet `AppendRR` succeeds and stores the Go-conversion-truncated
value (0 and 65535 respectively) instead of returning a format error —
`strconv.Atoi` accepts the number and `uint16(pref)` silently truncates. -/
theorem c7_counterexample :
    appendRR [] "foo.io" 15 "65536 mail.example.org." =
      Except.ok [("foo.io.", { mx := [⟨"mail.example.org.", 0⟩] })] ∧
    appendRR [] "foo.io" 15 "-1 mail.example.org." =
      Except.ok [("foo.io.", { mx := [⟨"mail.example.org.", 65535⟩] })] := by
  exact ⟨by rfl, by rfl⟩

/-- C7 (amended): `AppendRR` returns a format error for an MX value without
the `"<preference> <host>"` shape or an SRV value without the
`"<priority> <weight> <port> <target>"` shape, and for numeric fields that
`strconv.Atoi` rejects (non-numeric, or outside the signed 64-bit range);
numeric fields that parse but do not fit `uint16` are not rejected — they are
truncated modulo 2^16 by the Go conversion and stored. -/
theorem c7_parse_amended (zs : Zones) (n : String) :
    (∀ d p, splitN d 2 = [p] →
        appendRR zs n 15 d = Except.error "invalid MX rrData format") ∧
    (∀ d p h, splitN d 2 = [p, h] → goAtoi p = none →
        appendRR zs n 15 d = Except.error "invalid MX priority") ∧
    (∀ d p h v, splitN d 2 = [p, h] → goAtoi p = some v →
        appendRR zs n 15 d = Except.ok (zonesInsert zs (dotTerm n)
          { zoneAt zs (dotTerm n) with
            mx := (zoneAt zs (dotTerm n)).mx ++ [⟨h, toU16 v⟩] })) ∧
    (∀ d p, splitN d 4 = [p] →
        appendRR zs n 33 d = Except.error "invalid SRV rrData format") ∧
    (∀ d p w, splitN d 4 = [p, w] →
        appendRR zs n 33 d = Except.error "invalid SRV rrData format") ∧
    (∀ d p w t, splitN d 4 = [p, w, t] →
        appendRR zs n 33 d = Except.error "invalid SRV rrData format") ∧
    (∀ d p w t g, splitN d 4 = [p, w, t, g] → goAtoi p = none →
        appendRR zs n 33 d = Except.error "invalid SRV priority") ∧
    (∀ d p w t g vp, splitN d 4 = [p, w, t, g] → goAtoi p = some vp → goAtoi w = none →
        appendRR zs n 33 d = Except.error "invalid SRV priority") ∧
    (∀ d p w t g vp vw, splitN d 4 = [p, w, t, g] →
        goAtoi p = some vp → goAtoi w = some vw → goAtoi t = none →
        appendRR zs n 33 d = Except.error "invalid SRV port") ∧
    (∀ d p w t g vp vw vt, splitN d 4 = [p, w, t, g] →
        goAtoi p = some vp → goAtoi w = some vw → goAtoi t = some vt →
        appendRR zs n 33 d = Except.ok (zonesInsert zs (dotTerm n)
          { zoneAt zs (dotTerm n) with
            srv := (zoneAt zs (dotTerm n)).srv ++ [⟨toU16 vp, toU16 vw, toU16 vt, g⟩] })) := by
  refine ⟨?_, ?_, ?_, ?_, ?_, ?_, ?_, ?_, ?_, ?_⟩
  · intro d p hs
    simp [appendRR, hs]
  · intro d p h hs ha
    simp [appendRR, hs, ha]
  · intro d p h v hs ha
    simp [appendRR, hs, ha]
  · intro d p hs
    simp [appendRR, hs]
  · intro d p w hs
    simp [appendRR, hs]
  · intro d p w t hs
    simp [appendRR, hs]
  · intro d p w t g hs ha
    simp [appendRR, hs, ha]
  · intro d p w t g vp hs hp hw
    simp [appendRR, hs, hp, hw]
  · intro d p w t g vp vw hs hp hw ht
    simp [appendRR, hs, hp, hw, ht]
  · intro d p w t g vp vw vt hs hp hw ht
    simp [appendRR, hs, hp, hw, ht]

theorem c7_amended_witness :
    appendRR [] "foo.io" 15 "no-space-here" = Except.error "invalid MX rrData format" ∧
    appendRR [] "foo.io" 15 "ten mail.example.org." = Except.error "invalid MX priority" ∧
    appendRR [] "foo.io" 33 "1 2 3" = Except.error "invalid SRV rrData format" ∧
    appendRR [] "foo.io" 33 "1 2 x bar.io." = Except.error "invalid SRV port" ∧
    appendRR [] "foo.io" 33 "70000 2 3 bar.io." =
      Except.ok (zonesInsert [] (dotTerm "foo.io")
        { zoneAt [] (dotTerm "foo.io") with
          srv := (zoneAt [] (dotTerm "foo.io")).srv ++ [⟨toU16 70000, toU16 2, toU16 3, "bar.io."⟩] }) := by
  refine ⟨?_, ?_, ?_, ?_, ?_⟩
  · exact (c7_parse_amended [] "foo.io").1 "no-space-here" "no-space-here" (by rfl)
  · exact (c7_parse_amended [] "foo.io").2.1 "ten mail.example.org." "ten" "mail.example.org."
      (by rfl) (by rfl)
  · exact (c7_parse_amended [] "foo.io").2.2.2.2.2.1 "1 2 3" "1" "2" "3" (by rfl)
  · exact (c7_parse_amended [] "foo.io").2.2.2.2.2.2.2.2.1 "1 2 x bar.io." "1" "2" "x" "bar.io."
      1 2 (by rfl) (by rfl) (by rfl) (by rfl)
  · exact (c7_parse_amended [] "foo.io").2.2.2.2.2.2.2.2.2 "70000 2 3 bar.io." "70000" "2" "3"
      "bar.io." 70000 2 3 (by rfl) (by rfl) (by rfl) (by rfl)

theorem lookupIPBoth_absent (zs : Zones) (m : String)
    (h : zonesFind zs (normName m) = none) :
    lookupIPBoth zs m = Except.error ⟨true, normName m⟩ := by
  unfold lookupIPBoth
  rw [show (16 : Nat) = 15 + 1 from rfl, walk_step]
  simp [h]

/-- C8: after `RemoveRR`, the touched key either maps to a zone that is not
empty or is gone from the store (so a present-but-empty zone is never left
behind); in particular, when clearing the given type leaves the zone with no
records the entry is deleted, and any name that is absent from the store
resolves as NotFound. -/
theorem c8_remove_prunes_empty (zs : Zones) (n : String) (t : Nat) :
    (∀ z, zonesFind (removeRR zs n t) (dotTerm n) = some z → isZoneEmpty z = false) ∧
    (isZoneEmpty (clearRR (zoneAt zs (dotTerm n)) t) = true →
        zonesFind (removeRR zs n t) (dotTerm n) = none) ∧
    (∀ m, zonesFind (removeRR zs n t) (normName m) = none →
        lookupIPBoth (removeRR zs n t) m = Except.error ⟨true, normName m⟩) := by
  refine ⟨?_, ?_, ?_⟩
  · intro z hf
    simp only [removeRR] at hf
    split at hf
    case isTrue hcond =>
      rw [zonesFind_erase_self] at hf
      exact absurd hf (by simp)
    case isFalse hcond =>
      rw [zonesFind_insert_self] at hf
      injection hf with hf
      subst hf
      simpa using hcond
  · intro he
    simp only [removeRR]
    rw [if_pos he]
    exact zonesFind_erase_self zs (dotTerm n)
  · intro m hf
    exact lookupIPBoth_absent _ m hf

theorem c8_witness :
    zonesFind (removeRR [("foo.io.", { a := ["1.2.3.4"] })] "foo.io" 1) (dotTerm "foo.io") =
      none ∧
    lookupIPBoth (removeRR [("foo.io.", { a := ["1.2.3.4"] })] "foo.io" 1) "foo.io" =
      Except.error ⟨true, normName "foo.io"⟩ := by
  constructor
  · exact (c8_remove_prunes_empty [("foo.io.", { a := ["1.2.3.4"] })] "foo.io" 1).2.1 (by rfl)
  · exact (c8_remove_prunes_empty [("foo.io.", { a := ["1.2.3.4"] })] "foo.io" 1).2.2
      "foo.io" (by rfl)

/-- C9 counterexample: `AppendRR` under the mixed-case name `"Foo.io"` stores
the zone under the key `"Foo.io."` — the name is only dot-terminated, never
lowercased — so the normalised (lowercase) key `"foo.io."` used by lookups
misses it and a lookup under the lowercase form is NotFound, refuting the
claim that mutating operations normalise to a lowercase FQDN. -/
theorem c9_counterexample :
    appendRR [] "Foo.io" 1 "1.2.3.4" = Except.ok [("Foo.io.", { a := ["1.2.3.4"] })] ∧
    normName "Foo.io" = "foo.io." ∧
    zonesFind [("Foo.io.", { a := ["1.2.3.4"] })] "foo.io." = none ∧
    lookupIPBoth [("Foo.io.", { a := ["1.2.3.4"] })] "foo.io" =
      Except.error ⟨true, "foo.io."⟩ := by
  exact ⟨by rfl, by rfl, by rfl, by rfl⟩

/-- C9 (amended): `AppendRR` and `RemoveRR` normalise the name only by
dot-terminating it (no case folding): the key they touch is the
dot-terminated original name, and every other key of the store — in
particular the lowercase form of a mixed-case name — is left untouched. -/
theorem c9_mutation_only_dot_terminates (zs : Zones) (n : String) (t : Nat) (d : String) :
    hasDotSuffix (dotTerm n) = true ∧
    (∀ zs2, appendRR zs n t d = Except.ok zs2 →
        ∀ k, k ≠ dotTerm n → zonesFind zs2 k = zonesFind zs k) ∧
    (∀ k, k ≠ dotTerm n → zonesFind (removeRR zs n t) k = zonesFind zs k) := by
  refine ⟨hasDotSuffix_dotTerm n, ?_, ?_⟩
  · intro zs2 hap k hk
    simp only [appendRR] at hap
    repeat' split at hap
    all_goals
      first
        | (injection hap with hap
           subst hap
           exact zonesFind_insert_ne _ _ _ _ hk)
        | simp at hap
  · intro k hk
    simp only [removeRR]
    split
    · exact zonesFind_erase_ne zs (dotTerm n) k hk
    · exact zonesFind_insert_ne _ _ _ _ hk

theorem c9_amended_witness :
    hasDotSuffix (dotTerm "Foo.io") = true ∧
    zonesFind [("Foo.io.", { a := ["1.2.3.4"] })] "foo.io." = zonesFind [] "foo.io." := by
  constructor
  · exact (c9_mutation_only_dot_terminates [] "Foo.io" 1 "1.2.3.4").1
  · exact (c9_mutation_only_dot_terminates [] "Foo.io" 1 "1.2.3.4").2.1
      [("Foo.io.", { a := ["1.2.3.4"] })] (by rfl) "foo.io." (by decide)

end Mockdns
